import Mathlib

/-!
Shallow embedding of `src/unpack_swf.py` (an SWF container / tag-stream
parser) and proofs about it.

The Python code reads from a file handle; we model the handle as a byte
list plus a cursor position (`Handle`).  `handle.read(n)` returns up to
`n` bytes and advances the cursor by the number of bytes actually
returned; `handle.seek(-2, os.SEEK_CUR)` moves the cursor back two
bytes.  Python exceptions raised during unpacking are modelled by the
`PyError` sum: `struct.unpack` on a too-short buffer raises
`struct.error`, `bytes.decode("ascii")` on a byte ≥ 128 raises
`UnicodeDecodeError`, the code itself raises
`SWFFileUnpackingException` for an unknown signature, and
`bitstruct.unpack` raises for a zero-size field or a too-short buffer.
-/

deriving instance DecidableEq for Except

namespace SwfUnpack

/-- Errors (Python exceptions) that the modelled code paths can raise.
`structError` is `struct.error` (buffer shorter than the format needs);
`bitstructError` is the error raised by `bitstruct.unpack` (either a
zero-size field in the format string, which bitstruct rejects when
parsing the format, or fewer bits available than the format needs);
`asciiDecodeError` is `UnicodeDecodeError` from `bytes.decode("ascii")`;
`unknownSignature` is the `SWFFileUnpackingException` raised by
`unpackHeader1`; `seekError` is the `OSError` a negative absolute seek
would raise; `outOfFuel` is a modelling artifact of the fuelled tag
loop, never returned for the fuel `unpackTags` supplies. -/
inductive PyError where
  | structError
  | bitstructError
  | asciiDecodeError
  | unknownSignature
  | seekError
  | outOfFuel
deriving DecidableEq

/-- A Python binary file handle: the full byte content and the cursor. -/
structure Handle where
  data : List Nat
  pos : Nat
deriving DecidableEq

/-- Model of `handle.read(n)`: returns up to `n` bytes starting at the
cursor and advances the cursor by the number of bytes returned. -/
def hread (h : Handle) (n : Nat) : List Nat × Handle :=
  let bs := (h.data.drop h.pos).take n
  (bs, ⟨h.data, h.pos + bs.length⟩)

/-- Little-endian 16-bit value of the first two bytes of a list
(model of `struct.unpack("<H", ...)`). -/
def u16le (bs : List Nat) : Nat :=
  bs.getD 0 0 + 256 * bs.getD 1 0

/-- Little-endian 32-bit value of the first four bytes of a list
(model of `struct.unpack("<I", ...)`). -/
def u32le (bs : List Nat) : Nat :=
  bs.getD 0 0 + 256 * bs.getD 1 0 + 65536 * bs.getD 2 0 + 16777216 * bs.getD 3 0

/-- The static `tagCodeTranslation` dictionary of the source, as a
partial map from tag code to name; `none` models a code absent from
the dictionary. -/
def tagCodeTranslation : Nat → Option String
  | 0 => some "End"
  | 1 => some "ShowFrame"
  | 2 => some "DefineShape"
  | 4 => some "PlaceObject"
  | 5 => some "RemoveObject"
  | 6 => some "DefineBits"
  | 7 => some "DefineButton"
  | 8 => some "JPEGTables"
  | 9 => some "SetBackgroundColor"
  | 10 => some "DefineFont"
  | 11 => some "DefineText"
  | 12 => some "DoAction"
  | 13 => some "DefineFontInfo"
  | 14 => some "DefineSound"
  | 15 => some "StartSound"
  | 17 => some "DefineButtonSound"
  | 18 => some "SoundStreamHead"
  | 19 => some "SoundStreamBlock"
  | 20 => some "DefineBitsLossless"
  | 21 => some "DefineBitsJPEG2"
  | 22 => some "DefineShape2"
  | 23 => some "DefineButtonCxform"
  | 24 => some "Protect"
  | 26 => some "PlaceObject2"
  | 28 => some "RemoveObject2"
  | 32 => some "DefineShape3"
  | 33 => some "DefineText2"
  | 34 => some "DefineButton2"
  | 35 => some "DefineBitsJPEG3"
  | 36 => some "DefineBitsLossless2"
  | 37 => some "DefineEditText"
  | 39 => some "DefineSprite"
  | 41 => some "ProductInfo"
  | 43 => some "FrameLabel"
  | 45 => some "SoundStreamHead2"
  | 46 => some "DefineMorphShape"
  | 48 => some "DefineFont2"
  | 56 => some "ExportAssets"
  | 57 => some "ImportAssets"
  | 58 => some "EnableDebugger"
  | 59 => some "DoInitAction"
  | 60 => some "DefineVideoStream"
  | 61 => some "VideoFrame"
  | 62 => some "DefineFontInfo2"
  | 63 => some "DebugID"
  | 64 => some "EnableDebugger2"
  | 65 => some "ScriptLimits"
  | 66 => some "SetTabIndex"
  | 69 => some "FileAttributes"
  | 70 => some "PlaceObject3"
  | 71 => some "ImportAssets2"
  | 73 => some "DefineFontAlignZones"
  | 74 => some "CSMTextSettings"
  | 75 => some "DefineFont3"
  | 76 => some "SymbolClass"
  | 77 => some "Metadata"
  | 78 => some "DefineScalingGrid"
  | 82 => some "DoABC"
  | 83 => some "DefineShape4"
  | 84 => some "DefineMorphShape2"
  | 86 => some "DefineSceneAndFrameLabelData"
  | 87 => some "DefineBinaryData"
  | 88 => some "DefineFontName"
  | 89 => some "StartSound2"
  | 90 => some "DefineBitsJPEG4"
  | 91 => some "DefineFont4"
  | 93 => some "EnableTelemetry"
  | _ => none

/-- An `SWFTag` object: code and length as set by `SWFTag.__init__`. -/
structure SWFTag where
  code : Nat
  length : Nat
deriving DecidableEq

/-- The `typeName` attribute computed in `SWFTag.__init__`:
`tagCodeTranslation.get(self.code, "!UNKNOWN!")`. -/
def SWFTag.typeName (t : SWFTag) : String :=
  (tagCodeTranslation t.code).getD "!UNKNOWN!"

/-- `SWFTag.isEndTag`: `self.typeName == "End"`. -/
def SWFTag.isEndTag (t : SWFTag) : Bool :=
  t.typeName == "End"

/-- `SWFFile.unpackTagHeader`: read a little-endian u16, split it into
a 10-bit code (`data >> 6`) and a 6-bit inline length (`data & 0x3f`);
if the inline length is `0x3f`, read a little-endian u32 as the actual
length. -/
def unpackTagHeader (h : Handle) : Except PyError (SWFTag × Handle) :=
  let r2 := hread h 2
  if r2.1.length = 2 then
    let d := u16le r2.1
    let tagCode := d >>> 6
    let tagLength := d &&& 63
    if tagLength = 63 then
      let r4 := hread r2.2 4
      if r4.1.length = 4 then
        .ok (⟨tagCode, u32le r4.1⟩, r4.2)
      else .error .structError
    else .ok (⟨tagCode, tagLength⟩, r2.2)
  else .error .structError

/-- `SWFFile.unpackTag`: decode the tag header, then `read` the
declared number of payload bytes (Python `read` silently returns fewer
bytes when the buffer ends early). -/
def unpackTag (h : Handle) : Except PyError (SWFTag × Handle) :=
  match unpackTagHeader h with
  | .error e => .error e
  | .ok (tag, h1) =>
    let r := hread h1 tag.length
    .ok (tag, r.2)

/-- Python `math.ceil(a / 8)` for an integer `a` (the argument can be
negative: for rect width 0 the source computes `math.ceil(-3 / 8) = 0`). -/
def ceilDiv8 (a : Int) : Int :=
  (a + 7).fdiv 8

/-- Bit `i` of a byte list, MSB-first within each byte (the bit order
bitstruct uses). -/
def bitAt (bytes : List Nat) (i : Nat) : Nat :=
  (bytes.getD (i / 8) 0 >>> (7 - i % 8)) &&& 1

/-- Unsigned big-endian read of `count` bits starting at bit `start`
(bitstruct field `u<count>` placed after `start` bits). -/
def readUBits (bytes : List Nat) (start count : Nat) : Nat :=
  (List.range count).foldl (fun acc j => 2 * acc + bitAt bytes (start + j)) 0

/-- Signed two's-complement read of `count` bits starting at bit
`start` (bitstruct field `s<count>`): sign-extend from the top bit. -/
def readSBits (bytes : List Nat) (start count : Nat) : Int :=
  let u := readUBits bytes start count
  if u < 2 ^ (count - 1) then (u : Int) else (u : Int) - 2 ^ count

/-- An `SWFRect` object. -/
structure SWFRect where
  xmin : Int
  xmax : Int
  ymin : Int
  ymax : Int
deriving DecidableEq

/-- `SWFFile.unpackRect`: read one byte, take its top 5 bits as the
field width `size` (bitstruct `u5`; an error if the buffer is empty),
read `math.ceil((size * 4 - 3) / 8)` further bytes, then unpack the
format `p5` + `s<size>` four times from the concatenated bytes.
bitstruct rejects zero-size fields when parsing the format string, so
`size = 0` is an error, as is a buffer with fewer than `5 + 4*size`
bits. -/
def unpackRect (h : Handle) : Except PyError (SWFRect × Handle) :=
  let r1 := hread h 1
  if r1.1.length = 1 then
    let size := r1.1.getD 0 0 >>> 3
    let r2 := hread r1.2 (ceilDiv8 (4 * (size : Int) - 3)).toNat
    let data := r1.1 ++ r2.1
    if size = 0 then .error .bitstructError
    else if 5 + 4 * size ≤ 8 * data.length then
      .ok (⟨readSBits data 5 size,
            readSBits data (5 + size) size,
            readSBits data (5 + 2 * size) size,
            readSBits data (5 + 3 * size) size⟩, r2.2)
    else .error .bitstructError
  else .error .bitstructError

/-- The result of `SWFFile.unpackHeader1`: the attributes it sets.
The signature is kept as its three raw bytes (the Python code stores
the ASCII-decoded string, which is in bijection with them). -/
structure Header1 where
  signature : List Nat
  version : Nat
  fileLength : Nat
  compression : String
deriving DecidableEq

/-- `SWFFile.unpackHeader1`: read 8 bytes, unpack `<3sBI` (3-byte
signature, u8 version, little-endian u32 file length; an error if
fewer than 8 bytes), ASCII-decode the signature (an error if a byte is
not < 128), then map FWS/CWS/ZWS to compression none/zlib/lzma and
raise `SWFFileUnpackingException` for any other signature. -/
def unpackHeader1 (h : Handle) : Except PyError (Header1 × Handle) :=
  let r := hread h 8
  if r.1.length = 8 then
    let sig := r.1.take 3
    let version := r.1.getD 3 0
    let fileLength := u32le (r.1.drop 4)
    if sig.all (fun b => b < 128) then
      if sig = [70, 87, 83] then .ok (⟨sig, version, fileLength, "none"⟩, r.2)
      else if sig = [67, 87, 83] then .ok (⟨sig, version, fileLength, "zlib"⟩, r.2)
      else if sig = [90, 87, 83] then .ok (⟨sig, version, fileLength, "lzma"⟩, r.2)
      else .error .unknownSignature
    else .error .asciiDecodeError
  else .error .structError

/-- `SWFFile.unpackHeader2`: the rect, then `struct.unpack("<HH", ...)`
giving frame rate and frame count (an error if fewer than 4 bytes
remain). -/
def unpackHeader2 (h : Handle) : Except PyError ((SWFRect × Nat × Nat) × Handle) :=
  match unpackRect h with
  | .error e => .error e
  | .ok (rect, h1) =>
    let r := hread h1 4
    if r.1.length = 4 then .ok ((rect, u16le r.1, u16le (r.1.drop 2)), r.2)
    else .error .structError

/-- Whether the previous iteration's tag (Python's `tag` variable,
`None` before the first iteration) is an End tag. -/
def prevIsEnd : Option SWFTag → Bool
  | some t => t.isEndTag
  | none => false

/-- The `while` loop of `SWFFile.unpackTags`, with explicit fuel.  Per
iteration: `sample = handle.read(2)`; stop when the sample is empty;
otherwise count a tags-after-End warning when the previous tag is an
End tag, `seek(-2, SEEK_CUR)` (an error if the cursor is before byte
2, as Python raises for a negative seek), unpack one tag, append it,
and loop.  The result carries the accumulated tag list, the number of
tags-after-End warnings printed, and the final handle. -/
def unpackTagsLoop :
    Nat → Handle → Option SWFTag → List SWFTag → Nat →
      Except PyError (List SWFTag × Nat × Handle)
  | 0, _, _, _, _ => .error .outOfFuel
  | fuel+1, h, prev, tags, warns =>
    if (hread h 2).1.length = 0 then .ok (tags, warns, (hread h 2).2)
    else if (hread h 2).2.pos < 2 then .error .seekError
    else
      match unpackTag ⟨(hread h 2).2.data, (hread h 2).2.pos - 2⟩ with
      | .error e => .error e
      | .ok (tag, h3) =>
        unpackTagsLoop fuel h3 (some tag) (tags ++ [tag])
          (if prevIsEnd prev then warns + 1 else warns)

/-- `SWFFile.unpackTags` starting from an arbitrary handle state, with
enough fuel (the loop consumes at least one byte per iteration). -/
def unpackTags (h : Handle) : Except PyError (List SWFTag × Nat × Handle) :=
  unpackTagsLoop (h.data.length + 1 - h.pos) h none [] 0

/-- Number of tags-after-End warnings a given parsed tag sequence
produces: one for each tag whose immediate predecessor (or the given
previous tag, for the first element) is an End tag. -/
def chainCount : Option SWFTag → List SWFTag → Nat
  | _, [] => 0
  | prev, t :: ts => (if prevIsEnd prev then 1 else 0) + chainCount (some t) ts

/-! Helper lemmas about reads at a structured position. -/

lemma drop_len_add (pre tail : List Nat) (k : Nat) :
    (pre ++ tail).drop (pre.length + k) = tail.drop k := by
  simp [List.drop_append]

lemma hread_at (pre tail : List Nat) (n : Nat) :
    hread ⟨pre ++ tail, pre.length⟩ n =
      (tail.take n, ⟨pre ++ tail, pre.length + (tail.take n).length⟩) := by
  simp [hread, List.drop_left]

lemma hread_at_add (pre tail : List Nat) (k n : Nat) :
    hread ⟨pre ++ tail, pre.length + k⟩ n =
      ((tail.drop k).take n, ⟨pre ++ tail, pre.length + k + ((tail.drop k).take n).length⟩) := by
  simp [hread, drop_len_add, Nat.add_assoc]

/-- Unpacking one short-form tag at a structured position: the header
is the little-endian u16 of the two bytes at the cursor, and the
payload read consumes `min length remaining` bytes (Python `read`
returns fewer bytes at end of buffer without error). -/
lemma unpackTag_short (pre tail : List Nat) (b0 b1 : Nat)
    (hesc : (b0 + 256 * b1) &&& 63 ≠ 63) :
    unpackTag ⟨pre ++ b0 :: b1 :: tail, pre.length⟩ =
      .ok (⟨(b0 + 256 * b1) >>> 6, (b0 + 256 * b1) &&& 63⟩,
           ⟨pre ++ b0 :: b1 :: tail,
            pre.length + 2 + min ((b0 + 256 * b1) &&& 63) tail.length⟩) := by
  unfold unpackTag unpackTagHeader
  rw [hread_at]
  simp only [List.take_succ_cons, List.take_zero, List.length_cons, List.length_nil]
  norm_num [u16le, hesc]
  rw [show pre.length + (1 + 1) = pre.length + 2 from rfl, hread_at_add]
  simp [List.length_take]

/-- Unpacking one long-form tag at a structured position: inline
length 63 makes the parser read four more bytes as a little-endian u32
actual length. -/
lemma unpackTag_long (pre payload : List Nat) (b0 b1 b2 b3 b4 b5 : Nat)
    (hesc : (b0 + 256 * b1) &&& 63 = 63) :
    unpackTag ⟨pre ++ b0 :: b1 :: b2 :: b3 :: b4 :: b5 :: payload, pre.length⟩ =
      .ok (⟨(b0 + 256 * b1) >>> 6, u32le [b2, b3, b4, b5]⟩,
           ⟨pre ++ b0 :: b1 :: b2 :: b3 :: b4 :: b5 :: payload,
            pre.length + 6 + min (u32le [b2, b3, b4, b5]) payload.length⟩) := by
  unfold unpackTag unpackTagHeader
  rw [hread_at]
  simp only [List.take_succ_cons, List.take_zero, List.length_cons, List.length_nil]
  norm_num [u16le, hesc]
  rw [show pre.length + (1 + 1) = pre.length + 2 from rfl, hread_at_add]
  simp only [List.drop_succ_cons, List.drop_zero, List.take_succ_cons, List.take_zero,
    List.length_cons, List.length_nil]
  norm_num [u32le]
  rw [show pre.length + 2 + (1 + (1 + (1 + 1))) = pre.length + 6 from by omega, hread_at_add]
  simp [List.length_take, Nat.add_assoc]

/-- With the cursor at or past the end of the buffer, the tag loop
stops at once: `read(2)` returns nothing. -/
lemma loop_done (fuel : Nat) (h : Handle) (prev : Option SWFTag) (tags : List SWFTag) (w : Nat)
    (hend : h.data.length ≤ h.pos) :
    unpackTagsLoop (fuel + 1) h prev tags w = .ok (tags, w, h) := by
  simp [unpackTagsLoop, hread, List.drop_eq_nil_of_le hend]

/-- One iteration of the tag loop on a short-form tag whose two header
bytes are at the cursor. -/
lemma loop_step (fuel : Nat) (pre tail : List Nat) (b0 b1 : Nat)
    (prev : Option SWFTag) (tags : List SWFTag) (w : Nat)
    (hesc : (b0 + 256 * b1) &&& 63 ≠ 63) :
    unpackTagsLoop (fuel + 1) ⟨pre ++ b0 :: b1 :: tail, pre.length⟩ prev tags w =
      unpackTagsLoop fuel
        ⟨pre ++ b0 :: b1 :: tail, pre.length + 2 + min ((b0 + 256 * b1) &&& 63) tail.length⟩
        (some ⟨(b0 + 256 * b1) >>> 6, (b0 + 256 * b1) &&& 63⟩)
        (tags ++ [⟨(b0 + 256 * b1) >>> 6, (b0 + 256 * b1) &&& 63⟩])
        (if prevIsEnd prev then w + 1 else w) := by
  rw [unpackTagsLoop]
  rw [hread_at]
  simp only [List.take_succ_cons, List.take_zero, List.length_cons, List.length_nil]
  rw [if_neg (by omega : ¬ (0 + 1 + 1 = 0))]
  rw [if_neg (by omega : ¬ pre.length + (0 + 1 + 1) < 2)]
  rw [show pre.length + (0 + 1 + 1) - 2 = pre.length from by omega]
  rw [unpackTag_short _ _ _ _ hesc]

/-- One iteration of the tag loop on a long-form tag (inline length
0x3F, u32 actual length) whose six header bytes are at the cursor. -/
lemma loop_step_long (fuel : Nat) (pre tail : List Nat) (b0 b1 b2 b3 b4 b5 : Nat)
    (prev : Option SWFTag) (tags : List SWFTag) (w : Nat)
    (hesc : (b0 + 256 * b1) &&& 63 = 63) :
    unpackTagsLoop (fuel + 1)
        ⟨pre ++ b0 :: b1 :: b2 :: b3 :: b4 :: b5 :: tail, pre.length⟩ prev tags w =
      unpackTagsLoop fuel
        ⟨pre ++ b0 :: b1 :: b2 :: b3 :: b4 :: b5 :: tail,
         pre.length + 6 + min (u32le [b2, b3, b4, b5]) tail.length⟩
        (some ⟨(b0 + 256 * b1) >>> 6, u32le [b2, b3, b4, b5]⟩)
        (tags ++ [⟨(b0 + 256 * b1) >>> 6, u32le [b2, b3, b4, b5]⟩])
        (if prevIsEnd prev then w + 1 else w) := by
  rw [unpackTagsLoop]
  rw [hread_at]
  simp only [List.take_succ_cons, List.take_zero, List.length_cons, List.length_nil]
  rw [if_neg (by omega : ¬ (0 + 1 + 1 = 0))]
  rw [if_neg (by omega : ¬ pre.length + (0 + 1 + 1) < 2)]
  rw [show pre.length + (0 + 1 + 1) - 2 = pre.length from by omega]
  rw [unpackTag_long _ _ _ _ _ _ _ _ hesc]

lemma chainCount_eq_zero (ts : List SWFTag) : ∀ (p : Option SWFTag),
    prevIsEnd p = false → (∀ t ∈ ts, t.isEndTag = false) → chainCount p ts = 0 := by
  induction ts with
  | nil => intro p _ _; rfl
  | cons t ts ih =>
    intro p hp hts
    have h1 : t.isEndTag = false := hts t (by simp)
    have h2 : ∀ x ∈ ts, x.isEndTag = false := fun x hx => hts x (by simp [hx])
    simp [chainCount, hp, ih (some t) (by simp [prevIsEnd, h1]) h2]

/-- Prepending tags none of which is an End tag contributes nothing to
`chainCount`: the count of a concatenation starting from a non-End
previous tag reduces to the count of the suffix from some (still
non-End) previous tag. -/
lemma chainCount_append_nonend (pre : List SWFTag) : ∀ (rest : List SWFTag) (p : Option SWFTag),
    prevIsEnd p = false → (∀ t ∈ pre, t.isEndTag = false) →
    ∃ q, prevIsEnd q = false ∧ chainCount p (pre ++ rest) = chainCount q rest := by
  induction pre with
  | nil => intro rest p hp _; exact ⟨p, hp, rfl⟩
  | cons t pre ih =>
    intro rest p hp hts
    have h1 : t.isEndTag = false := hts t (by simp)
    have h2 : ∀ x ∈ pre, x.isEndTag = false := fun x hx => hts x (by simp [hx])
    obtain ⟨q, hq, hcc⟩ := ih rest (some t) (by simp [prevIsEnd, h1]) h2
    exact ⟨q, hq, by simp [chainCount, hp, hcc]⟩

/-- The warning-count invariant of the tag loop: a successful run
appends some list `new` of tags and adds exactly one warning for each
appended tag whose predecessor is an End tag. -/
lemma loop_warns (fuel : Nat) : ∀ (h : Handle) (prev : Option SWFTag)
    (tags allTags : List SWFTag) (w w2 : Nat) (h2 : Handle),
    unpackTagsLoop fuel h prev tags w = .ok (allTags, w2, h2) →
    ∃ new, allTags = tags ++ new ∧ w2 = w + chainCount prev new := by
  induction fuel with
  | zero =>
    intro h prev tags allTags w w2 h2 hok
    simp [unpackTagsLoop] at hok
  | succ fuel ih =>
    intro h prev tags allTags w w2 h2 hok
    rw [unpackTagsLoop] at hok
    by_cases hs : (hread h 2).1.length = 0
    · rw [if_pos hs] at hok
      simp only [Except.ok.injEq, Prod.mk.injEq] at hok
      obtain ⟨rfl, rfl, rfl⟩ := hok
      exact ⟨[], by simp, by simp [chainCount]⟩
    · rw [if_neg hs] at hok
      by_cases hp2 : (hread h 2).2.pos < 2
      · rw [if_pos hp2] at hok; exact absurd hok (by simp)
      · rw [if_neg hp2] at hok
        cases hu : unpackTag ⟨(hread h 2).2.data, (hread h 2).2.pos - 2⟩ with
        | error e => rw [hu] at hok; exact absurd hok (by simp)
        | ok p =>
          obtain ⟨tag, h3⟩ := p
          rw [hu] at hok
          obtain ⟨new, hnew, hw⟩ := ih _ _ _ _ _ _ _ hok
          refine ⟨tag :: new, by simp [hnew], ?_⟩
          rw [hw]
          by_cases hp : prevIsEnd prev
          · simp [chainCount, hp]; omega
          · simp [chainCount, hp]

/-- Arithmetic fact: for widths 1..31 the byte count of a rect,
`1 + math.ceil((4*w - 3) / 8)`, equals `⌈(5 + 4*w) / 8⌉`. -/
lemma rect_extra_eq (w : Nat) (hw1 : 1 ≤ w) (hw2 : w < 32) :
    (ceilDiv8 (4 * (w : Int) - 3)).toNat + 1 = (5 + 4 * w + 7) / 8 := by
  interval_cases w <;> decide

/-! The claims. -/

/-- Claim C1 (confirmed): when a tag header's 6-bit inline length field
equals 0x3F (63), the parser reads 4 more bytes as a little-endian u32
and uses that value as the tag's actual length; with enough payload
bytes available, decoding consumes exactly 2 + 4 = 6 header bytes plus
that many payload bytes. -/
theorem c1_long_form_length (pre payload : List Nat) (b0 b1 b2 b3 b4 b5 : Nat)
    (hesc : (b0 + 256 * b1) &&& 63 = 63)
    (hpay : u32le [b2, b3, b4, b5] ≤ payload.length) :
    unpackTag ⟨pre ++ b0 :: b1 :: b2 :: b3 :: b4 :: b5 :: payload, pre.length⟩ =
      .ok (⟨(b0 + 256 * b1) >>> 6, u32le [b2, b3, b4, b5]⟩,
           ⟨pre ++ b0 :: b1 :: b2 :: b3 :: b4 :: b5 :: payload,
            pre.length + 6 + u32le [b2, b3, b4, b5]⟩) := by
  rw [unpackTag_long _ _ _ _ _ _ _ _ hesc, Nat.min_eq_left hpay]

/-- Witness for C1: a long-form tag (code 12) with u32 length 1000
followed by 1000 payload bytes decodes to length 1000 and the cursor
advances exactly 6 + 1000 = 1006 bytes. -/
theorem c1_long_form_length_witness :
    ((63 + 256 * 3) &&& 63 = 63 ∧ u32le [232, 3, 0, 0] ≤ (List.replicate 1000 7).length) ∧
    unpackTag ⟨63 :: 3 :: 232 :: 3 :: 0 :: 0 :: List.replicate 1000 7, 0⟩ =
      .ok (⟨12, 1000⟩, ⟨63 :: 3 :: 232 :: 3 :: 0 :: 0 :: List.replicate 1000 7, 1006⟩) := by
  refine ⟨⟨by decide, by rw [List.length_replicate]; decide⟩, ?_⟩
  exact c1_long_form_length [] (List.replicate 1000 7) 63 3 232 3 0 0 (by decide)
    (by rw [List.length_replicate]; decide)

/-- Claim C2 (confirmed): the byte sequence 0x43, 0x02 followed by any
3 payload bytes decodes to code 9, typeName "SetBackgroundColor",
length 3, and the cursor advances exactly 2 + 3 = 5 bytes. -/
theorem c2_short_header_decode (p1 p2 p3 : Nat) (rest : List Nat) :
    unpackTag ⟨67 :: 2 :: p1 :: p2 :: p3 :: rest, 0⟩ =
      .ok (⟨9, 3⟩, ⟨67 :: 2 :: p1 :: p2 :: p3 :: rest, 5⟩) ∧
    SWFTag.typeName ⟨9, 3⟩ = "SetBackgroundColor" := by
  refine ⟨?_, rfl⟩
  have h := unpackTag_short [] (p1 :: p2 :: p3 :: rest) 67 2 (by decide)
  rw [(by decide : (67 + 256 * 2) &&& 63 = 3), (by decide : (67 + 256 * 2) >>> 6 = 9)] at h
  rw [Nat.min_eq_left (by simp only [List.length_cons]; omega)] at h
  simpa using h

/-- Counterexample to C3: the 3-byte signature 255, 87, 83 fails with
the `UnicodeDecodeError` of `bytes.decode("ascii")`, not with the
unknown-signature `SWFFileUnpackingException`, so not every other
signature value fails with `UnknownSignature`. -/
theorem c3_counterexample :
    unpackHeader1 ⟨[255, 87, 83, 1, 0, 0, 0, 0], 0⟩ = .error .asciiDecodeError ∧
    PyError.asciiDecodeError ≠ PyError.unknownSignature :=
  ⟨by decide, by decide⟩

/-- Claim C3 (amended): FWS, CWS and ZWS map deterministically to
compression "none", "zlib" and "lzma"; every other ASCII-decodable
3-byte signature (all bytes < 128) fails with the unknown-signature
error, and a signature containing a byte ≥ 128 fails with the ASCII
decode error — in no case is a default compression assumed. -/
theorem c3_amended_signature_map (s0 s1 s2 v a b c d : Nat) (rest : List Nat) :
    (unpackHeader1 ⟨70 :: 87 :: 83 :: v :: a :: b :: c :: d :: rest, 0⟩ =
      .ok (⟨[70, 87, 83], v, a + 256 * b + 65536 * c + 16777216 * d, "none"⟩,
           ⟨70 :: 87 :: 83 :: v :: a :: b :: c :: d :: rest, 8⟩)) ∧
    (unpackHeader1 ⟨67 :: 87 :: 83 :: v :: a :: b :: c :: d :: rest, 0⟩ =
      .ok (⟨[67, 87, 83], v, a + 256 * b + 65536 * c + 16777216 * d, "zlib"⟩,
           ⟨67 :: 87 :: 83 :: v :: a :: b :: c :: d :: rest, 8⟩)) ∧
    (unpackHeader1 ⟨90 :: 87 :: 83 :: v :: a :: b :: c :: d :: rest, 0⟩ =
      .ok (⟨[90, 87, 83], v, a + 256 * b + 65536 * c + 16777216 * d, "lzma"⟩,
           ⟨90 :: 87 :: 83 :: v :: a :: b :: c :: d :: rest, 8⟩)) ∧
    (s0 < 128 → s1 < 128 → s2 < 128 →
      [s0, s1, s2] ≠ [70, 87, 83] → [s0, s1, s2] ≠ [67, 87, 83] → [s0, s1, s2] ≠ [90, 87, 83] →
      unpackHeader1 ⟨s0 :: s1 :: s2 :: v :: a :: b :: c :: d :: rest, 0⟩ =
        .error .unknownSignature) ∧
    (¬ (s0 < 128 ∧ s1 < 128 ∧ s2 < 128) →
      unpackHeader1 ⟨s0 :: s1 :: s2 :: v :: a :: b :: c :: d :: rest, 0⟩ =
        .error .asciiDecodeError) := by
  refine ⟨?_, ?_, ?_, ?_, ?_⟩
  · simp [unpackHeader1, hread, u32le]
  · simp [unpackHeader1, hread, u32le]
  · simp [unpackHeader1, hread, u32le]
  · intro hs0 hs1 hs2 hne1 hne2 hne3
    simp [unpackHeader1, hread, hs0, hs1, hs2, hne1, hne2, hne3]
  · intro hnot
    simp only [not_and_or, Nat.not_lt] at hnot
    simp [unpackHeader1, hread]
    intro h0 h1 h2
    omega

/-- Witness for C3 (amended): the lowercase signature "fws"
(bytes 102, 119, 115, all ASCII) fails with the unknown-signature
error. -/
theorem c3_amended_signature_map_witness :
    (102 < 128 ∧ 119 < 128 ∧ 115 < 128 ∧
      ([102, 119, 115] : List Nat) ≠ [70, 87, 83] ∧
      ([102, 119, 115] : List Nat) ≠ [67, 87, 83] ∧
      ([102, 119, 115] : List Nat) ≠ [90, 87, 83]) ∧
    unpackHeader1 ⟨[102, 119, 115, 1, 0, 0, 0, 0], 0⟩ = .error .unknownSignature :=
  ⟨by decide,
    (c3_amended_signature_map 102 119 115 1 0 0 0 0 []).2.2.2.1
      (by decide) (by decide) (by decide) (by decide) (by decide) (by decide)⟩

/-- Counterexample to C4: at declared width 0 (first byte 0b00000111,
whose top 5 bits are 0) the rect decode does not succeed consuming
`⌈5/8⌉ = 1` byte — bitstruct rejects the zero-size signed fields of
the format `p5s0s0s0s0` and `unpackRect` fails. -/
theorem c4_counterexample_width_zero :
    unpackRect ⟨[7], 0⟩ = .error .bitstructError := by
  decide

/-- Claim C4 (amended): for every declared rect bit width w in 1..31,
with enough bytes available, decoding a rect succeeds and consumes
exactly `⌈(5 + 4*w) / 8⌉` bytes — 5 + 4*w bits rounded up to the next
whole byte — leaving the cursor byte-aligned for the subsequent
byte-aligned reads; width 0 instead fails (see the counterexample). -/
theorem c4_amended_rect_byte_count (w r : Nat) (pre rest : List Nat)
    (hw1 : 1 ≤ w) (hw2 : w < 32) (hr : r < 8)
    (hrest : (5 + 4 * w + 7) / 8 ≤ rest.length + 1) :
    ∃ rect : SWFRect,
      unpackRect ⟨pre ++ (8 * w + r) :: rest, pre.length⟩ =
        .ok (rect, ⟨pre ++ (8 * w + r) :: rest, pre.length + (5 + 4 * w + 7) / 8⟩) := by
  have hsize : (8 * w + r) >>> 3 = w := by
    rw [Nat.shiftRight_eq_div_pow]
    norm_num
    omega
  have hex := rect_extra_eq w hw1 hw2
  unfold unpackRect
  rw [hread_at]
  simp only [List.take_succ_cons, List.take_zero, List.length_cons, List.length_nil,
    List.getD_cons_zero]
  rw [if_pos (by norm_num)]
  rw [hsize]
  rw [if_neg (by omega : ¬ w = 0), show pre.length + (0 + 1) = pre.length + 1 from rfl,
    hread_at_add]
  simp only [List.drop_succ_cons, List.drop_zero, List.length_append, List.length_cons,
    List.length_nil, List.length_take]
  rw [if_pos (by omega)]
  rw [show pre.length + 1 + min (ceilDiv8 (4 * (w : Int) - 3)).toNat rest.length =
      pre.length + (5 + 4 * w + 7) / 8 from by omega]
  exact ⟨_, rfl⟩

/-- Witness for C4 (amended): at width 15 the decode consumes
`(5 + 4*15 + 7) / 8 = 9` bytes. -/
theorem c4_amended_rect_byte_count_witness :
    (1 ≤ 15 ∧ 15 < 32 ∧ 7 < 8 ∧
      (5 + 4 * 15 + 7) / 8 ≤ List.length [249, 192, 50, 0, 0, 1, 244, 0] + 1) ∧
    (∃ rect : SWFRect,
      unpackRect ⟨[127, 249, 192, 50, 0, 0, 1, 244, 0], 0⟩ =
        .ok (rect, ⟨[127, 249, 192, 50, 0, 0, 1, 244, 0], (5 + 4 * 15 + 7) / 8⟩)) :=
  ⟨by decide,
    c4_amended_rect_byte_count 15 7 [] [249, 192, 50, 0, 0, 1, 244, 0]
      (by decide) (by decide) (by decide) (by decide)⟩

/-- Counterexample to C5: on the hand-built width-15 pattern with
values -100, 400, 0, 1000 the four values decode correctly but the
cursor advances 9 bytes, not 8 as the claim states (the claim's own
formula gives `⌈(5 + 4*15)/8⌉ = ⌈65/8⌉ = 9`). -/
theorem c5_counterexample_nine_bytes :
    unpackRect ⟨[127, 249, 192, 50, 0, 0, 1, 244, 0], 0⟩ =
      .ok (⟨-100, 400, 0, 1000⟩, ⟨[127, 249, 192, 50, 0, 0, 1, 244, 0], 9⟩) ∧
    (9 : Nat) ≠ 8 :=
  ⟨by decide, by decide⟩

/-- Claim C5 (amended): decoding the hand-built width-15 bit pattern
with field values -100, 400, 0, 1000 yields exactly those four signed
values and the cursor advances exactly `(5 + 4*15 + 7) / 8 = 9`
bytes. -/
theorem c5_amended_rect_decode :
    unpackRect ⟨[127, 249, 192, 50, 0, 0, 1, 244, 0], 0⟩ =
      .ok (⟨-100, 400, 0, 1000⟩,
           ⟨[127, 249, 192, 50, 0, 0, 1, 244, 0], (5 + 4 * 15 + 7) / 8⟩) := by
  decide

/-- Claim C6 (confirmed): a tag stream ending exactly at a code-0 End
tag parses to completion with zero tags-after-End warnings, and the
identical stream with one more tag appended after the End tag parses
successfully with all three tags captured in order and exactly one
warning. -/
theorem c6_end_tag_anomaly :
    (SWFTag.isEndTag ⟨0, 0⟩ = true) ∧
    unpackTags ⟨[67, 2, 1, 2, 3, 0, 0], 0⟩ =
      .ok ([⟨9, 3⟩, ⟨0, 0⟩], 0, ⟨[67, 2, 1, 2, 3, 0, 0], 7⟩) ∧
    unpackTags ⟨[67, 2, 1, 2, 3, 0, 0, 64, 0], 0⟩ =
      .ok ([⟨9, 3⟩, ⟨0, 0⟩, ⟨1, 0⟩], 1, ⟨[67, 2, 1, 2, 3, 0, 0, 64, 0], 9⟩) :=
  ⟨by decide, by decide, by decide⟩

/-- Claim C7 (confirmed): a tag whose code is absent from
`tagCodeTranslation` resolves to the "!UNKNOWN!" marker, and the tag
loop continues over the rest of the stream exactly as it would from
the advanced cursor — the condition is non-fatal. -/
theorem c7_unknown_code_nonfatal (fuel : Nat) (pre payload rest : List Nat) (b0 b1 : Nat)
    (prev : Option SWFTag) (tags : List SWFTag) (w : Nat)
    (hcode : tagCodeTranslation ((b0 + 256 * b1) >>> 6) = none)
    (hesc : (b0 + 256 * b1) &&& 63 ≠ 63)
    (hpay : payload.length = (b0 + 256 * b1) &&& 63) :
    SWFTag.typeName ⟨(b0 + 256 * b1) >>> 6, (b0 + 256 * b1) &&& 63⟩ = "!UNKNOWN!" ∧
    unpackTagsLoop (fuel + 1) ⟨pre ++ b0 :: b1 :: (payload ++ rest), pre.length⟩ prev tags w =
      unpackTagsLoop fuel
        ⟨pre ++ b0 :: b1 :: (payload ++ rest), pre.length + 2 + payload.length⟩
        (some ⟨(b0 + 256 * b1) >>> 6, (b0 + 256 * b1) &&& 63⟩)
        (tags ++ [⟨(b0 + 256 * b1) >>> 6, (b0 + 256 * b1) &&& 63⟩])
        (if prevIsEnd prev then w + 1 else w) := by
  constructor
  · simp [SWFTag.typeName, hcode]
  · rw [loop_step _ _ _ _ _ _ _ _ hesc]
    rw [show min ((b0 + 256 * b1) &&& 63) (payload ++ rest).length = payload.length from by
      rw [List.length_append, ← hpay]; omega]

/-- Witness for C7: tag code 99 (absent from the registry, header
bytes 192, 24) resolves to "!UNKNOWN!" and the loop proceeds to the
following End tag. -/
theorem c7_unknown_code_nonfatal_witness :
    (tagCodeTranslation ((192 + 256 * 24) >>> 6) = none ∧ (192 + 256 * 24) &&& 63 ≠ 63 ∧
      (List.length ([] : List Nat) = (192 + 256 * 24) &&& 63)) ∧
    (SWFTag.typeName ⟨99, 0⟩ = "!UNKNOWN!" ∧
      unpackTagsLoop 4 ⟨[192, 24, 0, 0], 0⟩ none [] 0 =
        unpackTagsLoop 3 ⟨[192, 24, 0, 0], 2⟩ (some ⟨99, 0⟩) [⟨99, 0⟩] 0) :=
  ⟨⟨by decide, by decide, by decide⟩,
    c7_unknown_code_nonfatal 3 [] [] [0, 0] 192 24 none [] 0 (by decide) (by decide) (by decide)⟩

/-- Counterexample to C8: a tag declaring payload length 3 with only
one byte remaining does not fail — `unpackTags` completes with the tag
appended and no error of any kind. -/
theorem c8_counterexample_no_error :
    unpackTags ⟨[67, 2, 170], 0⟩ = .ok ([⟨9, 3⟩], 0, ⟨[67, 2, 170], 3⟩) := by
  decide

/-- Claim C8 (amended): for every tag whose declared payload length
exceeds the bytes remaining — whether the length is the short-form
6-bit inline value or the long-form u32 after the 0x3F escape — no
error is raised: Python `read` silently returns the remaining bytes,
the tag is appended carrying its declared length, every tag parsed
before it is preserved unchanged, and the loop then terminates at the
end of the buffer. -/
theorem c8_amended_truncated_tag (fuel : Nat) (pre tail : List Nat) (b0 b1 b2 b3 b4 b5 : Nat)
    (prev : Option SWFTag) (tags : List SWFTag) (w : Nat) :
    ((b0 + 256 * b1) &&& 63 ≠ 63 → tail.length < (b0 + 256 * b1) &&& 63 →
      unpackTagsLoop (fuel + 2) ⟨pre ++ b0 :: b1 :: tail, pre.length⟩ prev tags w =
        .ok (tags ++ [⟨(b0 + 256 * b1) >>> 6, (b0 + 256 * b1) &&& 63⟩],
             (if prevIsEnd prev then w + 1 else w),
             ⟨pre ++ b0 :: b1 :: tail, pre.length + 2 + tail.length⟩)) ∧
    ((b0 + 256 * b1) &&& 63 = 63 → tail.length < u32le [b2, b3, b4, b5] →
      unpackTagsLoop (fuel + 2)
          ⟨pre ++ b0 :: b1 :: b2 :: b3 :: b4 :: b5 :: tail, pre.length⟩ prev tags w =
        .ok (tags ++ [⟨(b0 + 256 * b1) >>> 6, u32le [b2, b3, b4, b5]⟩],
             (if prevIsEnd prev then w + 1 else w),
             ⟨pre ++ b0 :: b1 :: b2 :: b3 :: b4 :: b5 :: tail,
              pre.length + 6 + tail.length⟩)) := by
  constructor
  · intro hesc hshort
    rw [show fuel + 2 = (fuel + 1) + 1 from rfl, loop_step _ _ _ _ _ _ _ _ hesc,
        Nat.min_eq_right (Nat.le_of_lt hshort),
        loop_done _ _ _ _ _ (by simp; omega)]
  · intro hesc hshort
    rw [show fuel + 2 = (fuel + 1) + 1 from rfl, loop_step_long _ _ _ _ _ _ _ _ _ _ _ _ hesc,
        Nat.min_eq_right (Nat.le_of_lt hshort),
        loop_done _ _ _ _ _ (by simp; omega)]

/-- Witness for C8 (amended): a short-form tag declaring length 3 with
one byte remaining, and a long-form tag declaring u32 length 5 with
two bytes remaining, both return ok with the tag appended. -/
theorem c8_amended_truncated_tag_witness :
    (((67 + 256 * 2) &&& 63 ≠ 63 ∧ List.length [170] < (67 + 256 * 2) &&& 63) ∧
      unpackTagsLoop 2 ⟨[67, 2, 170], 0⟩ none [] 0 = .ok ([⟨9, 3⟩], 0, ⟨[67, 2, 170], 3⟩)) ∧
    (((127 + 256 * 0) &&& 63 = 63 ∧ List.length [9, 9] < u32le [5, 0, 0, 0]) ∧
      unpackTagsLoop 2 ⟨[127, 0, 5, 0, 0, 0, 9, 9], 0⟩ none [] 0 =
        .ok ([⟨1, 5⟩], 0, ⟨[127, 0, 5, 0, 0, 0, 9, 9], 8⟩)) :=
  ⟨⟨⟨by decide, by decide⟩,
      (c8_amended_truncated_tag 0 [] [170] 67 2 0 0 0 0 none [] 0).1 (by decide) (by decide)⟩,
   ⟨⟨by decide, by decide⟩,
      (c8_amended_truncated_tag 0 [] [9, 9] 127 0 5 0 0 0 none [] 0).2 (by decide) (by decide)⟩⟩

/-- Claim C9 (confirmed): when a parse succeeds with any number of
non-End tags, then an End tag, then two or more further tags none of
which is an End tag, the tags-after-End warning fires exactly once —
for the tag immediately after the End tag; a tag whose immediate
predecessor is not an End tag never contributes (the non-End prefix
and the non-End suffix both contribute zero to the count). -/
theorem c9_single_anomaly (h : Handle) (pre suf : List SWFTag) (e : SWFTag)
    (w : Nat) (h2 : Handle)
    (hok : unpackTags h = .ok (pre ++ e :: suf, w, h2))
    (hpre : ∀ t ∈ pre, t.isEndTag = false)
    (hend : e.isEndTag = true)
    (hsuf : ∀ t ∈ suf, t.isEndTag = false)
    (hlen : 2 ≤ suf.length) :
    w = 1 := by
  rw [unpackTags] at hok
  obtain ⟨new, hnew, hw⟩ := loop_warns _ _ _ _ _ _ _ _ hok
  rw [List.nil_append] at hnew
  subst hnew
  obtain ⟨q, hq, hcc⟩ := chainCount_append_nonend pre (e :: suf) none rfl hpre
  rw [hcc] at hw
  cases suf with
  | nil => simp at hlen
  | cons t1 ts1 =>
    have h1 : t1.isEndTag = false := hsuf t1 (by simp)
    have h2 : ∀ x ∈ ts1, x.isEndTag = false := fun x hx => hsuf x (by simp [hx])
    have hz := chainCount_eq_zero ts1 (some t1) (by simp [prevIsEnd, h1]) h2
    simp only [chainCount] at hw
    rw [hq] at hw
    simp only [prevIsEnd] at hw
    simp only [hend, hz] at hw
    simp at hw
    omega

/-- Witness for C9: a ShowFrame tag, then an End tag, then two further
ShowFrame tags produce exactly one warning. -/
theorem c9_single_anomaly_witness :
    (unpackTags ⟨[64, 0, 0, 0, 64, 0, 64, 0], 0⟩ =
        .ok ([⟨1, 0⟩] ++ ⟨0, 0⟩ :: [⟨1, 0⟩, ⟨1, 0⟩], 1, ⟨[64, 0, 0, 0, 64, 0, 64, 0], 8⟩) ∧
      (∀ t ∈ [(⟨1, 0⟩ : SWFTag)], t.isEndTag = false) ∧
      SWFTag.isEndTag ⟨0, 0⟩ = true ∧
      (∀ t ∈ [(⟨1, 0⟩ : SWFTag), ⟨1, 0⟩], t.isEndTag = false) ∧
      2 ≤ List.length [(⟨1, 0⟩ : SWFTag), ⟨1, 0⟩]) ∧
    (1 : Nat) = 1 :=
  ⟨⟨by decide, by decide, by decide, by decide, by decide⟩,
    c9_single_anomaly ⟨[64, 0, 0, 0, 64, 0, 64, 0], 0⟩ [⟨1, 0⟩] [⟨1, 0⟩, ⟨1, 0⟩] ⟨0, 0⟩ 1
      ⟨[64, 0, 0, 0, 64, 0, 64, 0], 8⟩ (by decide) (by decide) (by decide) (by decide)
      (by decide)⟩

/-- Counterexample to C10: with one byte remaining at a tag boundary,
parsing can stop with an error after all: when the spurious two-byte
header (last consumed byte 63, trailing byte 255) has inline length
0x3F, the 4-byte extended-length read hits the end of the buffer and
`struct.unpack` fails. -/
theorem c10_counterexample_long_form :
    unpackTags ⟨[0, 63, 255], 0⟩ = .error .structError := by
  decide

/-- Claim C10 (amended): if exactly one byte remains at a tag boundary
and the spurious header's inline length field is not 0x3F, the parser
does not stop and reports no truncation: it seeks back two bytes,
decodes a header from the last consumed byte together with the single
trailing byte, appends the resulting spurious tag, and terminates. -/
theorem c10_amended_spurious_tag (fuel : Nat) (pre : List Nat) (x y : Nat)
    (prev : Option SWFTag) (tags : List SWFTag) (w : Nat)
    (hesc : (x + 256 * y) &&& 63 ≠ 63) :
    unpackTagsLoop (fuel + 2) ⟨pre ++ [x, y], pre.length + 1⟩ prev tags w =
      .ok (tags ++ [⟨(x + 256 * y) >>> 6, (x + 256 * y) &&& 63⟩],
           (if prevIsEnd prev then w + 1 else w),
           ⟨pre ++ [x, y], pre.length + 2⟩) := by
  rw [show fuel + 2 = (fuel + 1) + 1 from rfl, unpackTagsLoop]
  rw [hread_at_add]
  simp only [List.drop_succ_cons, List.drop_zero, List.take_succ_cons, List.take_zero,
    List.take_nil, List.length_cons, List.length_nil]
  rw [if_neg (by omega : ¬ (0 + 1 = 0))]
  rw [if_neg (by omega : ¬ pre.length + 1 + (0 + 1) < 2)]
  rw [show pre.length + 1 + (0 + 1) - 2 = pre.length from by omega]
  rw [unpackTag_short _ _ _ _ hesc]
  simp only [List.length_nil, Nat.min_zero, Nat.add_zero]
  rw [loop_done _ _ _ _ _ (by simp)]

/-- Witness for C10 (amended): one byte remains after byte 64; the
spurious tag decoded from bytes 64, 0 (a ShowFrame header) is
appended and the loop ends. -/
theorem c10_amended_spurious_tag_witness :
    ((64 + 256 * 0) &&& 63 ≠ 63) ∧
    unpackTagsLoop 2 ⟨[64, 0], 1⟩ none [] 0 = .ok ([⟨1, 0⟩], 0, ⟨[64, 0], 2⟩) :=
  ⟨by decide, c10_amended_spurious_tag 0 [] 64 0 none [] 0 (by decide)⟩

end SwfUnpack
